import Mathlib

/-!
Verification of the crawl4ai-web-crawler CLI (`webscraper_crawl4ai.py`)
against its natural-language specification.

Python strings are embedded as `List Char` in the URL/filename section
(where character-level reasoning is needed) and as Lean `String` in the
result-processing section.  The parts of the crawl engine that live in the
third-party `crawl4ai` library (BFS frontier, filter-chain admission,
rate-limiter backoff, LLM credential resolution) are modelled from the
spec, and each such definition says so in its doc comment.
-/

set_option autoImplicit false

namespace WebScraper

/-- Python `str` at character granularity. -/
abbrev Str := List Char

/-- `s.rstrip('/')` from `get_filename_from_url`: drop trailing slashes. -/
def rstripSlashes (s : Str) : Str :=
  (s.reverse.dropWhile (fun c => c = '/')).reverse

/-- Python `s.split(sep)` for a one-character separator: the list of
(possibly empty) groups between occurrences of `sep`; never empty,
`"".split(sep) = [""]`. -/
def splitOnChar (sep : Char) : Str → List Str
  | [] => [[]]
  | c :: rest =>
    let groups := splitOnChar sep rest
    if c = sep then [] :: groups
    else
      match groups with
      | [] => [[c]]
      | g :: gs => (c :: g) :: gs

/-- `re.sub(r'[\?#].*$', '', s)`: remove everything from the first `?` or
`#` on (for the newline-free filenames this script produces). -/
def stripQueryFragment (s : Str) : Str :=
  s.takeWhile (fun c => !(c = '?' || c = '#'))

/-- Python's `\w` word-character class restricted to ASCII: alphanumeric or
underscore. -/
def isWordChar (c : Char) : Bool :=
  c.isAlphanum || c = '_'

/-- `re.sub(r'[^\w\-\.]', '_', s)`: every character that is not a word
character, hyphen or dot becomes an underscore. -/
def sanitizeChars (s : Str) : Str :=
  s.map (fun c => if isWordChar c || c = '-' || c = '.' then c else '_')

/-- The common tail of `get_filename_from_url`: strip query/fragment, fall
back to `index` when empty, then sanitize. -/
def finalizeFilename (s : Str) : Str :=
  let s1 := stripQueryFragment s
  let s2 := if s1.isEmpty then ['i', 'n', 'd', 'e', 'x'] else s1
  sanitizeChars s2

/-- The components of `urllib.parse.urlparse` that `get_filename_from_url`
reads. -/
structure ParsedUrl where
  netloc : Str
  path : Str
deriving DecidableEq, Repr

/-- Locate the first `"://"` and return the text after it, if any. -/
def afterSchemeSep : Str → Option Str
  | [] => none
  | ':' :: '/' :: '/' :: rest => some rest
  | _ :: rest => afterSchemeSep rest

/-- `urllib.parse.urlparse`, restricted to the fields this script uses:
`netloc` is the text between `"://"` and the first `/`, `?` or `#`;
`path` runs from that `/` up to the first `?` or `#`.  A URL without
`"://"` has an empty netloc and its text up to `?`/`#` as path. -/
def urlparse (url : Str) : ParsedUrl :=
  match afterSchemeSep url with
  | none => { netloc := [], path := url.takeWhile (fun c => !(c = '?' || c = '#')) }
  | some rest =>
    let netloc := rest.takeWhile (fun c => !(c = '/' || c = '?' || c = '#'))
    let after := rest.dropWhile (fun c => !(c = '/' || c = '?' || c = '#'))
    { netloc := netloc, path := after.takeWhile (fun c => !(c = '?' || c = '#')) }

/-- The branch structure of `get_filename_from_url` before the common
tail; `none` models the `IndexError` raised by `netloc.split('.')[-2]`
when the split has fewer than two parts. -/
def getFilenameCore (p : ParsedUrl) : Option Str :=
  let path := rstripSlashes p.path
  if !path.isEmpty && path.contains '/' then
    let pathParts := splitOnChar '/' path
    match pathParts.reverse with
    | lastPart :: parentPart :: _ =>
      if !parentPart.isEmpty then some (parentPart ++ '_' :: lastPart)
      else some lastPart
    | [lastPart] => some lastPart
    | [] => some []
  else if !path.isEmpty then
    some path
  else
    match (splitOnChar '.' p.netloc).reverse with
    | _ :: secondLast :: _ => some secondLast
    | _ => none

/-- `get_filename_from_url` from `webscraper_crawl4ai.py`; `none` models a
raised `IndexError`. -/
def get_filename_from_url (url : Str) : Option Str :=
  (getFilenameCore (urlparse url)).map finalizeFilename

theorem splitOnChar_ne_nil (sep : Char) (s : Str) : splitOnChar sep s ≠ [] := by
  induction s with
  | nil => simp [splitOnChar]
  | cons c rest ih =>
    simp only [splitOnChar]
    by_cases hc : c = sep
    · simp [hc]
    · rw [if_neg hc]
      cases h : splitOnChar sep rest with
      | nil => exact absurd h ih
      | cons g gs => simp

theorem splitOnChar_length_ge_two (sep : Char) (s : Str) (h : sep ∈ s) :
    2 ≤ (splitOnChar sep s).length := by
  induction s with
  | nil => simp at h
  | cons c rest ih =>
    simp only [splitOnChar]
    by_cases hc : c = sep
    · rw [if_pos hc]
      have h1 : 1 ≤ (splitOnChar sep rest).length := by
        cases hr : splitOnChar sep rest with
        | nil => exact absurd hr (splitOnChar_ne_nil sep rest)
        | cons g gs => simp
      simpa using h1
    · rw [if_neg hc]
      have hm : sep ∈ rest := by
        rcases List.mem_cons.mp h with h' | h'
        · exact absurd h'.symm hc
        · exact h'
      have h2 := ih hm
      cases hr : splitOnChar sep rest with
      | nil => exact absurd hr (splitOnChar_ne_nil sep rest)
      | cons g gs => rw [hr] at h2; simpa using h2

theorem splitOnChar_not_mem (sep : Char) (s : Str) (h : sep ∉ s) :
    splitOnChar sep s = [s] := by
  induction s with
  | nil => simp [splitOnChar]
  | cons c rest ih =>
    have hc : ¬ c = sep := fun hcs => h (hcs ▸ List.mem_cons_self c rest)
    have hm : sep ∉ rest := fun hr => h (List.mem_cons_of_mem c hr)
    simp only [splitOnChar]
    rw [if_neg hc, ih hm]

theorem exists_cons_cons_of_two_le_length {α : Type} (l : List α) (h : 2 ≤ l.length) :
    ∃ a b t, l = a :: b :: t := by
  match l with
  | [] => simp at h
  | [a] => simp at h
  | a :: b :: t => exact ⟨a, b, t, rfl⟩

theorem finalizeFilename_ne_nil (s : Str) : finalizeFilename s ≠ [] := by
  unfold finalizeFilename sanitizeChars
  intro hnil
  rw [List.map_eq_nil_iff] at hnil
  cases h : (stripQueryFragment s).isEmpty with
  | true => rw [h] at hnil; simp at hnil
  | false =>
    rw [h] at hnil
    simp only [Bool.false_eq_true, if_false] at hnil
    rw [hnil] at h
    simp at h

theorem finalizeFilename_chars (s : Str) :
    (finalizeFilename s).all (fun c => isWordChar c || c = '-' || c = '.') = true := by
  unfold finalizeFilename sanitizeChars
  rw [List.all_eq_true]
  intro c hc
  rw [List.mem_map] at hc
  obtain ⟨d, _, hd⟩ := hc
  cases hb : (isWordChar d || d = '-' || d = '.') with
  | true => rw [if_pos hb] at hd; rw [← hd]; exact hb
  | false =>
    rw [if_neg (by simp [hb])] at hd
    rw [← hd]
    decide

/-- C9: `get_filename_from_url` returns normally whenever the parsed path
(after stripping trailing slashes) is non-empty or the host contains a
dot; with an empty path and a dot-free host (such as `https://localhost`)
the `netloc.split('.')[-2]` indexing is out of bounds and the function
raises instead of returning. -/
theorem getFilename_totality :
    (∀ url : Str,
      (rstripSlashes (urlparse url).path ≠ [] ∨ '.' ∈ (urlparse url).netloc) →
      (get_filename_from_url url).isSome = true)
    ∧ (∀ url : Str,
      rstripSlashes (urlparse url).path = [] → '.' ∉ (urlparse url).netloc →
      get_filename_from_url url = none) := by
  constructor
  · intro url h
    simp only [get_filename_from_url]
    suffices hs : (getFilenameCore (urlparse url)).isSome = true by
      cases hc : getFilenameCore (urlparse url) with
      | none => rw [hc] at hs; simp at hs
      | some g => simp
    by_cases hp : rstripSlashes (urlparse url).path = []
    · have hdot : '.' ∈ (urlparse url).netloc := by
        rcases h with h' | h'
        · exact absurd hp h'
        · exact h'
      have h2 : 2 ≤ (splitOnChar '.' (urlparse url).netloc).length :=
        splitOnChar_length_ge_two _ _ hdot
      have h2' : 2 ≤ (splitOnChar '.' (urlparse url).netloc).reverse.length := by
        simpa using h2
      obtain ⟨a, b, t, hab⟩ := exists_cons_cons_of_two_le_length _ h2'
      simp only [getFilenameCore, hp, hab]
      simp
    · have hne : (rstripSlashes (urlparse url).path).isEmpty = false := by
        cases hq : rstripSlashes (urlparse url).path with
        | nil => exact absurd hq hp
        | cons x xs => simp
      by_cases hsl : '/' ∈ rstripSlashes (urlparse url).path
      · have hcont : List.contains (rstripSlashes (urlparse url).path) '/' = true := by
          simpa using hsl
        simp only [getFilenameCore, hne, hcont, Bool.not_false, Bool.true_and, if_true]
        cases hrev : (splitOnChar '/' (rstripSlashes (urlparse url).path)).reverse with
        | nil => simp
        | cons l1 tl =>
          cases tl with
          | nil => simp
          | cons p1 tl2 =>
            cases hpe : p1.isEmpty with
            | true => simp [hpe]
            | false => simp [hpe]
      · simp [getFilenameCore, hne, hsl]
  · intro url hp hdot
    simp [get_filename_from_url, getFilenameCore, hp,
      splitOnChar_not_mem '.' _ hdot]

/-- Closed instances of `getFilename_totality`: a URL with a non-empty
path returns normally, and `https://localhost` (empty path, dot-free
host) raises. -/
theorem getFilename_totality_witness :
    (get_filename_from_url ("https://example.com/docs/api".toList)).isSome = true
    ∧ get_filename_from_url ("https://localhost".toList) = none :=
  ⟨getFilename_totality.1 _ (Or.inl (by decide)),
   getFilename_totality.2 _ (by decide) (by decide)⟩

/-- C10: whenever `get_filename_from_url` returns normally, the returned
filename is non-empty and consists only of word characters, hyphens and
dots (anything else is replaced by an underscore, and an empty derivation
falls back to `index`). -/
theorem getFilename_safe :
    ∀ (url f : Str), get_filename_from_url url = some f →
      f ≠ [] ∧ f.all (fun c => isWordChar c || c = '-' || c = '.') = true := by
  intro url f h
  unfold get_filename_from_url at h
  cases hc : getFilenameCore (urlparse url) with
  | none => rw [hc] at h; simp at h
  | some g =>
    rw [hc] at h
    simp only [Option.map_some', Option.some.injEq] at h
    rw [← h]
    exact ⟨finalizeFilename_ne_nil g, finalizeFilename_chars g⟩

/-- Closed instance of `getFilename_safe` at a concrete URL. -/
theorem getFilename_safe_witness :
    "docs_libraries".toList ≠ []
    ∧ ("docs_libraries".toList).all (fun c => isWordChar c || c = '-' || c = '.') = true :=
  getFilename_safe ("https://console.groq.com/docs/libraries".toList)
    ("docs_libraries".toList) (by decide)

/-! ## Crawl results and the result-processing loops of `main` -/

/-- The fields of a crawl4ai `MarkdownGenerationResult` that `main` reads;
`hasFitAttr` models `hasattr(result.markdown, 'fit_markdown')`. -/
structure MarkdownResult where
  raw_markdown : Option String
  fit_markdown : Option String
  hasFitAttr : Bool
deriving DecidableEq, Repr

/-- The fields of a crawl4ai `CrawlResult` that `main` reads.  `depthMeta`
models `result.metadata.get("depth")`; `markdown = none` models a falsy
`result.markdown`. -/
structure CrawlResult where
  url : String
  depthMeta : Option Nat
  success : Bool
  markdown : Option MarkdownResult
deriving DecidableEq, Repr

/-- `result.metadata.get("depth", 0)` (lines 346 and 411 of the script). -/
def resultDepth (r : CrawlResult) : Nat := r.depthMeta.getD 0

/-- One `pages_by_depth` update: append the url to the bucket for `d`,
creating the bucket if absent (a Python dict keeps insertion order). -/
def addToDepthTable (t : List (Nat × List String)) (d : Nat) (u : String) :
    List (Nat × List String) :=
  match t with
  | [] => [(d, [u])]
  | (k, us) :: rest =>
    if k = d then (k, us ++ [u]) :: rest
    else (k, us) :: addToDepthTable rest d u

/-- The markdown content chosen by the save branches (streaming lines
360-372, batch lines 438-450): with a content filter configured and a
`fit_markdown` attribute present, only the fit markdown (empty-string
fallback) is saved; otherwise the raw markdown. -/
def mdContentFor (contentFilterSet : Bool) (r : CrawlResult) (md : MarkdownResult) : String :=
  if contentFilterSet && md.hasFitAttr then
    "# " ++ r.url ++ "\n\n" ++ md.fit_markdown.getD ""
  else
    "# " ++ r.url ++ "\n\n" ++ md.raw_markdown.getD ""

/-- The save guard `args.save_markdown and result.success and
hasattr(result, 'markdown') and result.markdown`, returning the
`(url, content)` pair written for the page when it fires. -/
def savedFileFor (saveMarkdown contentFilterSet : Bool) (r : CrawlResult) :
    Option (String × String) :=
  if saveMarkdown && r.success then
    match r.markdown with
    | some md => some (r.url, mdContentFor contentFilterSet r md)
    | none => none
  else none

/-- The mutable state of the streaming loop (lines 336-381). -/
structure StreamLoopState where
  total_pages : Nat
  markdown_count : Nat
  pages_by_depth : List (Nat × List String)
  saved : List (String × String)
deriving DecidableEq, Repr

/-- One iteration of the streaming `async for` body. -/
def streamingStep (saveMarkdown contentFilterSet : Bool)
    (s : StreamLoopState) (r : CrawlResult) : StreamLoopState :=
  let table := addToDepthTable s.pages_by_depth (resultDepth r) r.url
  match savedFileFor saveMarkdown contentFilterSet r with
  | some entry =>
    { total_pages := s.total_pages + 1, markdown_count := s.markdown_count + 1,
      pages_by_depth := table, saved := s.saved ++ [entry] }
  | none =>
    { total_pages := s.total_pages + 1, markdown_count := s.markdown_count,
      pages_by_depth := table, saved := s.saved }

/-- The whole streaming loop over the deterministic result sequence. -/
def streamingRun (saveMarkdown contentFilterSet : Bool) (rs : List CrawlResult) :
    StreamLoopState :=
  rs.foldl (streamingStep saveMarkdown contentFilterSet)
    { total_pages := 0, markdown_count := 0, pages_by_depth := [], saved := [] }

/-- The batch-mode grouping loop (lines 409-414). -/
def batchPagesByDepth (rs : List CrawlResult) : List (Nat × List String) :=
  rs.foldl (fun t r => addToDepthTable t (resultDepth r) r.url) []

/-- The batch-mode save loop (lines 432-459). -/
def batchSaved (saveMarkdown contentFilterSet : Bool) (rs : List CrawlResult) :
    List (String × String) :=
  rs.filterMap (savedFileFor saveMarkdown contentFilterSet)

/-- Insertion step of `sorted(pages_by_depth.items())` (keys are unique,
so sorting pairs lexicographically is sorting by depth). -/
def insertByKey (p : Nat × List String) :
    List (Nat × List String) → List (Nat × List String)
  | [] => [p]
  | q :: rest => if p.1 ≤ q.1 then p :: q :: rest else q :: insertByKey p rest

/-- `sorted(pages_by_depth.items())`. -/
def sortByKey : List (Nat × List String) → List (Nat × List String)
  | [] => []
  | p :: rest => insertByKey p (sortByKey rest)

/-- What the final `CRAWL RESULTS` report contains: the total page count
and, per depth in ascending order, the number of pages at that depth
(streaming lines 384-394, batch lines 405-423). -/
structure CrawlSummary where
  totalPages : Nat
  depthCounts : List (Nat × Nat)
deriving DecidableEq, Repr

def summaryOf (total : Nat) (table : List (Nat × List String)) : CrawlSummary :=
  { totalPages := total,
    depthCounts := (sortByKey table).map (fun p => (p.1, p.2.length)) }

/-- The streaming-mode summary. -/
def streamingSummary (saveMarkdown contentFilterSet : Bool)
    (rs : List CrawlResult) : CrawlSummary :=
  summaryOf (streamingRun saveMarkdown contentFilterSet rs).total_pages
    (streamingRun saveMarkdown contentFilterSet rs).pages_by_depth

/-- The batch-mode summary. -/
def batchSummary (rs : List CrawlResult) : CrawlSummary :=
  summaryOf rs.length (batchPagesByDepth rs)

/-- Number of successful results (reported by neither summary). -/
def countSucceeded (rs : List CrawlResult) : Nat :=
  (rs.filter (fun r => r.success)).length

/-- Urls of the results at depth `d`, in arrival order. -/
def urlsAtDepth (rs : List CrawlResult) (d : Nat) : List String :=
  (rs.filter (fun r => resultDepth r = d)).map (fun r => r.url)

/-- First-match bucket lookup in a depth table. -/
def lookupDepth : List (Nat × List String) → Nat → List String
  | [], _ => []
  | (k, us) :: rest, d => if k = d then us else lookupDepth rest d

/-- All urls appearing in some bucket of a depth table. -/
def allUrls (t : List (Nat × List String)) : List String :=
  (t.map Prod.snd).flatten

theorem lookupDepth_add (t : List (Nat × List String)) (d d' : Nat) (u : String) :
    lookupDepth (addToDepthTable t d u) d' =
      if d' = d then lookupDepth t d ++ [u] else lookupDepth t d' := by
  induction t with
  | nil =>
    by_cases h : d' = d
    · subst h; simp [addToDepthTable, lookupDepth]
    · simp [addToDepthTable, lookupDepth, h, Ne.symm h]
  | cons p rest ih =>
    obtain ⟨k, us⟩ := p
    by_cases hk : k = d
    · subst hk
      by_cases h : d' = k
      · subst h; simp [addToDepthTable, lookupDepth]
      · simp [addToDepthTable, lookupDepth, h, Ne.symm h]
    · by_cases h : d' = k
      · subst h
        have hne : ¬ d' = d := fun hh => hk (hh ▸ rfl)
        simp [addToDepthTable, lookupDepth, hk, hne]
      · simp [addToDepthTable, lookupDepth, hk, h, Ne.symm h, ih]

theorem lookupDepth_fold (rs : List CrawlResult) (t : List (Nat × List String)) (d : Nat) :
    lookupDepth (rs.foldl (fun t r => addToDepthTable t (resultDepth r) r.url) t) d
      = lookupDepth t d ++ urlsAtDepth rs d := by
  induction rs generalizing t with
  | nil => simp [urlsAtDepth]
  | cons r rest ih =>
    simp only [List.foldl_cons]
    rw [ih, lookupDepth_add]
    by_cases h : resultDepth r = d
    · subst h
      simp [urlsAtDepth, List.filter_cons]
    · simp [urlsAtDepth, List.filter_cons, h, Ne.symm h]

def keysOf (t : List (Nat × List String)) : List Nat := t.map Prod.fst

theorem keysOf_add (t : List (Nat × List String)) (d : Nat) (u : String) :
    keysOf (addToDepthTable t d u) =
      if d ∈ keysOf t then keysOf t else keysOf t ++ [d] := by
  induction t with
  | nil => simp [addToDepthTable, keysOf]
  | cons p rest ih =>
    obtain ⟨k, us⟩ := p
    by_cases hk : k = d
    · subst hk
      simp [addToDepthTable, keysOf]
    · simp only [addToDepthTable, if_neg hk, keysOf, List.map_cons]
      by_cases hmem : d ∈ keysOf rest
      · have hcond : d ∈ List.map Prod.fst ((k, us) :: rest) := by
          simp [keysOf] at hmem
          simp [hmem]
        simp only [keysOf] at ih hmem
        simp [ih, hmem, List.map_cons]
      · have hcond : ¬ d ∈ List.map Prod.fst ((k, us) :: rest) := by
          simp only [keysOf] at hmem
          simp [List.map_cons, Ne.symm hk, hmem]
        simp only [keysOf] at ih hmem
        simp [ih, hmem, List.map_cons, hcond, Ne.symm hk]

theorem nodupKeys_add (t : List (Nat × List String)) (d : Nat) (u : String)
    (h : (keysOf t).Nodup) : (keysOf (addToDepthTable t d u)).Nodup := by
  rw [keysOf_add]
  by_cases hmem : d ∈ keysOf t
  · simpa [hmem] using h
  · rw [if_neg hmem]
    rw [List.nodup_append]
    refine ⟨h, List.nodup_singleton d, ?_⟩
    intro a ha hd
    simp at hd
    subst hd
    exact hmem ha

theorem nodupKeys_fold (rs : List CrawlResult) (t : List (Nat × List String))
    (h : (keysOf t).Nodup) :
    (keysOf (rs.foldl (fun t r => addToDepthTable t (resultDepth r) r.url) t)).Nodup := by
  induction rs generalizing t with
  | nil => simpa using h
  | cons r rest ih =>
    simp only [List.foldl_cons]
    exact ih _ (nodupKeys_add _ _ _ h)

theorem lookupDepth_of_mem (t : List (Nat × List String)) (d : Nat) (us : List String)
    (hnd : (keysOf t).Nodup) (h : (d, us) ∈ t) : lookupDepth t d = us := by
  induction t with
  | nil => simp at h
  | cons p rest ih =>
    obtain ⟨k, vs⟩ := p
    simp only [keysOf, List.map_cons, List.nodup_cons] at hnd
    obtain ⟨hnot, hrest⟩ := hnd
    rcases List.mem_cons.mp h with h' | h'
    · rw [← h']
      simp [lookupDepth]
    · have hk : ¬ k = d := by
        intro hkd
        subst hkd
        exact hnot (by simpa using List.mem_map_of_mem Prod.fst h')
      simp only [lookupDepth, if_neg hk]
      exact ih hrest h'

theorem mem_batchPagesByDepth (rs : List CrawlResult) (d : Nat) (us : List String)
    (h : (d, us) ∈ batchPagesByDepth rs) : us = urlsAtDepth rs d := by
  have hnd : (keysOf (batchPagesByDepth rs)).Nodup :=
    nodupKeys_fold rs [] (by simp [keysOf])
  have hl := lookupDepth_of_mem _ _ _ hnd h
  rw [← hl]
  have hfold := lookupDepth_fold rs [] d
  simpa [batchPagesByDepth, lookupDepth] using hfold

theorem mem_allUrls_of_lookup (t : List (Nat × List String)) (d : Nat) (x : String)
    (h : x ∈ lookupDepth t d) : x ∈ allUrls t := by
  induction t with
  | nil => simp [lookupDepth] at h
  | cons p rest ih =>
    obtain ⟨k, us⟩ := p
    simp only [lookupDepth] at h
    by_cases hk : k = d
    · rw [if_pos hk] at h
      simp [allUrls]
      exact Or.inl h
    · rw [if_neg hk] at h
      have := ih h
      simp [allUrls] at this ⊢
      exact Or.inr this

theorem mem_insertByKey (p x : Nat × List String) (l : List (Nat × List String)) :
    x ∈ insertByKey p l ↔ x = p ∨ x ∈ l := by
  induction l with
  | nil => simp [insertByKey]
  | cons q rest ih =>
    simp only [insertByKey]
    by_cases h : p.1 ≤ q.1
    · simp [h]
    · simp only [if_neg h, List.mem_cons, ih]
      tauto

theorem mem_sortByKey (x : Nat × List String) (l : List (Nat × List String)) :
    x ∈ sortByKey l ↔ x ∈ l := by
  induction l with
  | nil => simp [sortByKey]
  | cons p rest ih =>
    simp only [sortByKey, mem_insertByKey, ih, List.mem_cons]

theorem streamingRun_total (sm cf : Bool) (rs : List CrawlResult) :
    ∀ s : StreamLoopState,
      (rs.foldl (streamingStep sm cf) s).total_pages = s.total_pages + rs.length := by
  induction rs with
  | nil => intro s; simp
  | cons r rest ih =>
    intro s
    simp only [List.foldl_cons, List.length_cons]
    rw [ih]
    cases hf : savedFileFor sm cf r with
    | some entry => simp only [streamingStep, hf]; omega
    | none => simp only [streamingStep, hf]; omega

theorem streamingRun_table (sm cf : Bool) (rs : List CrawlResult) :
    ∀ s : StreamLoopState,
      (rs.foldl (streamingStep sm cf) s).pages_by_depth =
        rs.foldl (fun t r => addToDepthTable t (resultDepth r) r.url) s.pages_by_depth := by
  induction rs with
  | nil => intro s; simp
  | cons r rest ih =>
    intro s
    simp only [List.foldl_cons]
    rw [ih]
    cases hf : savedFileFor sm cf r with
    | some entry => simp only [streamingStep, hf]
    | none => simp only [streamingStep, hf]

theorem streamingRun_saved (sm cf : Bool) (rs : List CrawlResult) :
    ∀ s : StreamLoopState,
      (rs.foldl (streamingStep sm cf) s).saved =
        s.saved ++ rs.filterMap (savedFileFor sm cf) := by
  induction rs with
  | nil => intro s; simp
  | cons r rest ih =>
    intro s
    simp only [List.foldl_cons, List.filterMap_cons]
    rw [ih]
    cases hf : savedFileFor sm cf r with
    | some entry => simp [streamingStep, hf]
    | none => simp [streamingStep, hf]

theorem streamingRun_mdcount (sm cf : Bool) (rs : List CrawlResult) :
    ∀ s : StreamLoopState,
      (rs.foldl (streamingStep sm cf) s).markdown_count =
        s.markdown_count + (rs.filterMap (savedFileFor sm cf)).length := by
  induction rs with
  | nil => intro s; simp
  | cons r rest ih =>
    intro s
    simp only [List.foldl_cons, List.filterMap_cons]
    rw [ih]
    cases hf : savedFileFor sm cf r with
    | some entry => simp only [streamingStep, hf, List.length_cons]; omega
    | none => simp only [streamingStep, hf]

/-- C1: with the same deterministic result sequence, streaming mode and
batch mode produce the same outcomes, identical depth-bucket groupings,
the same total page count, the same saved files, and the same final
summary. -/
theorem stream_batch_equiv (sm cf : Bool) (rs : List CrawlResult) :
    (streamingRun sm cf rs).pages_by_depth = batchPagesByDepth rs
    ∧ (streamingRun sm cf rs).total_pages = rs.length
    ∧ (streamingRun sm cf rs).saved = batchSaved sm cf rs
    ∧ streamingSummary sm cf rs = batchSummary rs := by
  refine ⟨?_, ?_, ?_, ?_⟩
  · rw [streamingRun, streamingRun_table]; rfl
  · rw [streamingRun, streamingRun_total]; simp
  · rw [streamingRun, streamingRun_saved]; simp [batchSaved]
  · rw [streamingSummary, streamingRun, streamingRun_table, streamingRun_total]
    simp [batchSummary, batchPagesByDepth]

/-- The markdown object of a successfully fetched page whose content
filter retained nothing: `fit_markdown` is the empty string while
`raw_markdown` has content. -/
def filterFailMd : MarkdownResult :=
  { raw_markdown := some "RAW CONTENT", fit_markdown := some "", hasFitAttr := true }

/-- A successfully fetched page carrying `filterFailMd`. -/
def filterFailResult : CrawlResult :=
  { url := "https://a.com/p", depthMeta := some 0, success := true,
    markdown := some filterFailMd }

/-- C3 counterexample: saving is enabled and a content filter is
configured; the filter retained nothing on a successfully fetched page
whose raw markdown is available, yet the saved content is the header plus
the empty fit markdown — the raw markdown is not written. -/
theorem filter_fallback_counterexample :
    savedFileFor true true filterFailResult =
      some ("https://a.com/p", "# https://a.com/p\n\n")
    ∧ ("# https://a.com/p\n\n" : String) ≠
      "# https://a.com/p\n\n" ++ "RAW CONTENT" := by
  refine ⟨by rfl, by decide⟩

/-- C3 (amended): a page is never dropped — every delivered result is
counted in the depth grouping — and a successful page with a markdown
object is always written when saving is enabled; but with a content
filter configured and `fit_markdown` present the saved content is the
(possibly empty) fit markdown, and the raw markdown is written only when
no content filter is configured or `fit_markdown` is absent. -/
theorem filter_fallback_amended (cf : Bool) (r : CrawlResult) (md : MarkdownResult)
    (rs : List CrawlResult) (hmd : r.markdown = some md) (hmem : r ∈ rs) :
    r.url ∈ allUrls (batchPagesByDepth rs)
    ∧ (r.success = true → savedFileFor true cf r = some (r.url, mdContentFor cf r md))
    ∧ ((cf && md.hasFitAttr) = true →
        mdContentFor cf r md = "# " ++ r.url ++ "\n\n" ++ md.fit_markdown.getD "")
    ∧ ((cf && md.hasFitAttr) = false →
        mdContentFor cf r md = "# " ++ r.url ++ "\n\n" ++ md.raw_markdown.getD "") := by
  refine ⟨?_, ?_, ?_, ?_⟩
  · have hurl : r.url ∈ urlsAtDepth rs (resultDepth r) := by
      rw [urlsAtDepth]
      apply List.mem_map_of_mem
      rw [List.mem_filter]
      exact ⟨hmem, by simp⟩
    have hlk : lookupDepth (batchPagesByDepth rs) (resultDepth r)
        = urlsAtDepth rs (resultDepth r) := by
      have hfold := lookupDepth_fold rs [] (resultDepth r)
      simpa [batchPagesByDepth, lookupDepth] using hfold
    exact mem_allUrls_of_lookup _ _ _ (by rw [hlk]; exact hurl)
  · intro hs
    simp [savedFileFor, hs, hmd]
  · intro hc
    simp [mdContentFor, hc]
  · intro hc
    simp [mdContentFor, hc]

/-- Closed instance of the amended C3 at the filter-failure page. -/
theorem filter_fallback_amended_witness :
    filterFailResult.url ∈ allUrls (batchPagesByDepth [filterFailResult])
    ∧ (filterFailResult.success = true →
        savedFileFor true true filterFailResult =
          some (filterFailResult.url, mdContentFor true filterFailResult filterFailMd))
    ∧ ((true && filterFailMd.hasFitAttr) = true →
        mdContentFor true filterFailResult filterFailMd =
          "# " ++ filterFailResult.url ++ "\n\n" ++ filterFailMd.fit_markdown.getD "")
    ∧ ((true && filterFailMd.hasFitAttr) = false →
        mdContentFor true filterFailResult filterFailMd =
          "# " ++ filterFailResult.url ++ "\n\n" ++ filterFailMd.raw_markdown.getD "") :=
  filter_fallback_amended true filterFailResult filterFailMd [filterFailResult]
    (by rfl) (by simp)

/-- A delivered result whose fetch succeeded. -/
def summaryResOk : CrawlResult :=
  { url := "https://a.com/x", depthMeta := some 0, success := true, markdown := none }

/-- The same result with a failed fetch. -/
def summaryResFail : CrawlResult :=
  { url := "https://a.com/x", depthMeta := some 0, success := false, markdown := none }

/-- C6 counterexample: two runs whose success counts differ (1 vs 0)
produce identical final summaries in both modes, so the summary does not
report the number of pages that succeeded. -/
theorem summary_counterexample :
    batchSummary [summaryResOk] = batchSummary [summaryResFail]
    ∧ streamingSummary false false [summaryResOk]
        = streamingSummary false false [summaryResFail]
    ∧ countSucceeded [summaryResOk] ≠ countSucceeded [summaryResFail] := by
  refine ⟨by decide, by decide, by decide⟩

/-- C6 (amended): the final summary reports the total number of pages
crawled and, for each listed depth, the number of pages at that depth
(in both modes); the number of successful pages is not part of it. -/
theorem summary_reports (sm cf : Bool) (rs : List CrawlResult) :
    (streamingSummary sm cf rs).totalPages = rs.length
    ∧ (batchSummary rs).totalPages = rs.length
    ∧ (∀ p, p ∈ (batchSummary rs).depthCounts →
        p.2 = (rs.filter (fun r => resultDepth r = p.1)).length) := by
  refine ⟨?_, rfl, ?_⟩
  · rw [streamingSummary, streamingRun, streamingRun_total]
    simp [summaryOf]
  · intro p hp
    rw [batchSummary, summaryOf] at hp
    simp only [List.mem_map] at hp
    obtain ⟨q, hq, hpq⟩ := hp
    rw [mem_sortByKey] at hq
    have hq' : (q.1, q.2) ∈ batchPagesByDepth rs := by
      rw [Prod.mk.eta]
      exact hq
    have husq := mem_batchPagesByDepth rs q.1 q.2 hq'
    rw [← hpq]
    simp only
    rw [husq]
    simp [urlsAtDepth]

/-- Closed instance of the amended C6 at a one-page run. -/
theorem summary_reports_witness :
    ((0, 1) : Nat × Nat).2 =
      (([summaryResOk].filter
        (fun r => resultDepth r = ((0, 1) : Nat × Nat).1)).length) :=
  (summary_reports false false [summaryResOk]).2.2 (0, 1) (by decide)

/-! ## Configuration surface of `main` -/

inductive ContentFilterKind | pruning | bm25 | llm
deriving DecidableEq, Repr

inductive ThresholdKind | fixed | dynamic
deriving DecidableEq, Repr

inductive DispatcherKind | memory | semaphore
deriving DecidableEq, Repr

inductive CacheMode | enabled | bypass | refresh
deriving DecidableEq, Repr

/-- The parsed command-line arguments with their argparse defaults
(lines 76-172); `nargs="*"` options are lists that are empty when absent,
matching Python truthiness, and optional scalars are `Option`s. -/
structure Args where
  url : String
  max_depth : Nat := 2
  max_pages : Option Nat := none
  include_external : Bool := false
  verbose : Bool := false
  url_patterns : List String := []
  allowed_domains : List String := []
  blocked_domains : List String := []
  allowed_content_types : List String := []
  content_filter : Option ContentFilterKind := none
  pruning_threshold : ℚ := 0.45
  threshold_type : ThresholdKind := ThresholdKind.dynamic
  min_word_threshold : Nat := 5
  user_query : Option String := none
  bm25_threshold : ℚ := 1.2
  use_stemming : Bool := false
  llm_provider : String := "openai/gpt-4o"
  llm_api_token : Option String := none
  llm_instruction : String := "Extract the main content while preserving its original wording and substance."
  chunk_token_threshold : Nat := 4096
  llm_verbose : Bool := false
  ignore_links : Bool := false
  ignore_images : Bool := false
  escape_html : Bool := false
  body_width : Nat := 0
  skip_internal_links : Bool := false
  save_markdown : Bool := false
  output_dir : String := "./output"
  enable_rate_limiter : Bool := false
  base_delay_min : ℚ := 1
  base_delay_max : ℚ := 3
  max_delay : ℚ := 60
  max_retries : Nat := 3
  dispatcher : DispatcherKind := DispatcherKind.memory
  memory_threshold : ℚ := 90
  check_interval : ℚ := 1
  max_concurrent : Nat := 10
  stream : Bool := false
  enable_monitor : Bool := false
  cache_mode : CacheMode := CacheMode.bypass
deriving DecidableEq, Repr

/-- A discovered link as seen by the filter chain. -/
structure Link where
  url : String
  domain : String
  contentType : String
deriving DecidableEq, Repr

/-- The three predicate kinds `main` may install (lines 176-188). -/
inductive CrawlFilter
  | urlPattern (patterns : List String)
  | domainFilter (allowed_domains blocked_domains : List String)
  | contentTypeFilter (allowed_types : List String)
deriving DecidableEq, Repr

/-- Modelled from the spec (§4.1) — the predicate semantics live in the
crawl4ai library, not in this repository: a URL-pattern filter accepts iff
some pattern matches (glob matching abstracted as `gm`), a domain filter
accepts iff the domain is in the allow-set (when non-empty) and not in
the block-set, and a content-type filter accepts iff the type is in the
allow-set. -/
def CrawlFilter.accepts (gm : String → String → Bool) : CrawlFilter → Link → Bool
  | .urlPattern pats, link => pats.any (fun p => gm p link.url)
  | .domainFilter allowed blocked, link =>
      (allowed.isEmpty || allowed.contains link.domain) && !(blocked.contains link.domain)
  | .contentTypeFilter types, link => types.contains link.contentType

/-- crawl4ai's `FilterChain`. -/
structure FilterChain where
  filters : List CrawlFilter
deriving DecidableEq, Repr

/-- Modelled from the spec (§4.1): a link is admitted iff every predicate
of the chain accepts it; an empty chain always returns `true`. -/
def FilterChain.applyAll (gm : String → String → Bool) (fc : FilterChain)
    (link : Link) : Bool :=
  fc.filters.all (fun f => f.accepts gm link)

/-- Lines 176-188: build the list of filters from the options given. -/
def buildFilters (args : Args) : List CrawlFilter :=
  (if !args.url_patterns.isEmpty then [CrawlFilter.urlPattern args.url_patterns] else [])
  ++ (if !args.allowed_domains.isEmpty || !args.blocked_domains.isEmpty then
        [CrawlFilter.domainFilter args.allowed_domains args.blocked_domains] else [])
  ++ (if !args.allowed_content_types.isEmpty then
        [CrawlFilter.contentTypeFilter args.allowed_content_types] else [])

/-- Line 192: `FilterChain(filters=filters)` is always constructed, even
when `filters` is empty. -/
def buildFilterChain (args : Args) : FilterChain :=
  { filters := buildFilters args }

/-- crawl4ai's `BFSDeepCrawlStrategy` construction surface; the library
parameter may be absent (`None`), hence the `Option` chain. -/
structure BFSDeepCrawlStrategy where
  max_depth : Nat
  include_external : Bool
  filter_chain : Option FilterChain
  max_pages : Option Nat
deriving DecidableEq, Repr

/-- Lines 195-203: the strategy is always built with `some` filter chain,
and `max_pages` is set afterwards when given. -/
def buildStrategy (args : Args) : BFSDeepCrawlStrategy :=
  { max_depth := args.max_depth, include_external := args.include_external,
    filter_chain := some (buildFilterChain args), max_pages := args.max_pages }

/-- The markdown-options dict (lines 205-216): a key is present only when
its flag is set. -/
structure MarkdownOptions where
  ignore_links : Option Bool
  ignore_images : Option Bool
  escape_html : Option Bool
  body_width : Option Nat
  skip_internal_links : Option Bool
deriving DecidableEq, Repr

def buildMarkdownOptions (args : Args) : MarkdownOptions :=
  { ignore_links := if args.ignore_links then some true else none,
    ignore_images := if args.ignore_images then some true else none,
    escape_html := if args.escape_html then some true else none,
    body_width := if args.body_width > 0 then some args.body_width else none,
    skip_internal_links := if args.skip_internal_links then some true else none }

inductive ConfigError | configurationError
deriving DecidableEq, Repr

/-- The content-filter objects `main` constructs (lines 218-263). -/
inductive ContentFilter
  | pruningFilter (threshold : ℚ) (threshold_type : ThresholdKind)
      (min_word_threshold : Nat)
  | bm25Filter (user_query : Option String) (bm25_threshold : ℚ) (use_stemming : Bool)
  | llmFilter (provider : String) (api_token : String) (instruction : String)
      (chunk_token_threshold : Nat) (verbose : Bool)
deriving DecidableEq, Repr

/-- First association found for a key (environment lookup). -/
def lookupAssoc (env : List (String × String)) (key : String) : Option String :=
  match env with
  | [] => none
  | (k, v) :: rest => if k = key then some v else lookupAssoc rest key

/-- The `{PROVIDER}_API_KEY` name derived from the provider string
(lines 261-262). -/
def envVarFor (provider : String) : String :=
  ((provider.splitOn "/").headD "").toUpper ++ "_API_KEY"

/-- Modelled from the spec (§7) — credential resolution happens inside
crawl4ai's `LLMConfig`, not in this repository: the explicit token
argument wins, else the `{PROVIDER}_API_KEY` environment variable, and an
LLM filter with no resolvable credential is a fatal configuration
error. -/
def buildContentFilter (env : List (String × String)) (args : Args) :
    Except ConfigError (Option ContentFilter) :=
  match args.content_filter with
  | none => .ok none
  | some ContentFilterKind.pruning =>
      .ok (some (.pruningFilter args.pruning_threshold args.threshold_type
        args.min_word_threshold))
  | some ContentFilterKind.bm25 =>
      .ok (some (.bm25Filter args.user_query args.bm25_threshold args.use_stemming))
  | some ContentFilterKind.llm =>
      match args.llm_api_token with
      | some tok =>
          .ok (some (.llmFilter args.llm_provider tok args.llm_instruction
            args.chunk_token_threshold args.llm_verbose))
      | none =>
          match lookupAssoc env (envVarFor args.llm_provider) with
          | some tok =>
              .ok (some (.llmFilter args.llm_provider tok args.llm_instruction
                args.chunk_token_threshold args.llm_verbose))
          | none => .error ConfigError.configurationError

/-- `DefaultMarkdownGenerator(content_filter=..., options=...)`
(lines 266-269). -/
structure MarkdownGenerator where
  content_filter : Option ContentFilter
  options : MarkdownOptions
deriving DecidableEq, Repr

/-- `CrawlerRunConfig` (lines 279-286): the markdown generator is threaded
only when `--save-markdown` is set. -/
structure CrawlerRunConfig where
  deep_crawl_strategy : BFSDeepCrawlStrategy
  verbose : Bool
  markdown_generator : Option MarkdownGenerator
  stream : Bool
  cache_mode : CacheMode
deriving DecidableEq, Repr

/-- `RateLimiter` construction surface (lines 289-297). -/
structure RateLimiter where
  base_delay_min : ℚ
  base_delay_max : ℚ
  max_delay : ℚ
  max_retries : Nat
deriving DecidableEq, Repr

def buildRateLimiter (args : Args) : Option RateLimiter :=
  if args.enable_rate_limiter then
    some { base_delay_min := args.base_delay_min, base_delay_max := args.base_delay_max,
           max_delay := args.max_delay, max_retries := args.max_retries }
  else none

/-- The dispatcher `main` constructs (lines 305-323). -/
inductive Dispatcher
  | memoryAdaptive (memory_threshold_percent check_interval : ℚ)
      (max_session_permit : Nat) (rate_limiter : Option RateLimiter) (monitor : Bool)
  | semaphore (max_session_permit : Nat) (rate_limiter : Option RateLimiter)
      (monitor : Bool)
deriving DecidableEq, Repr

def buildDispatcher (args : Args) : Dispatcher :=
  match args.dispatcher with
  | DispatcherKind.memory =>
      .memoryAdaptive args.memory_threshold args.check_interval
        args.max_concurrent (buildRateLimiter args) args.enable_monitor
  | DispatcherKind.semaphore =>
      .semaphore args.max_concurrent (buildRateLimiter args) args.enable_monitor

/-- Everything `main` constructs before the crawl starts. -/
structure ProgramSetup where
  strategy : BFSDeepCrawlStrategy
  content_filter : Option ContentFilter
  md_generator : MarkdownGenerator
  runConfig : CrawlerRunConfig
  dispatcher : Dispatcher
deriving DecidableEq, Repr

/-- Lines 174-323: the configuration phase of `main`; all of it runs
before `crawler.arun` is called. -/
def configPhase (env : List (String × String)) (args : Args) :
    Except ConfigError ProgramSetup :=
  match buildContentFilter env args with
  | .error e => .error e
  | .ok cf =>
    let strategy := buildStrategy args
    let mdgen : MarkdownGenerator :=
      { content_filter := cf, options := buildMarkdownOptions args }
    let runCfg : CrawlerRunConfig :=
      { deep_crawl_strategy := strategy, verbose := args.verbose,
        markdown_generator := if args.save_markdown then some mdgen else none,
        stream := args.stream, cache_mode := args.cache_mode }
    .ok { strategy := strategy, content_filter := cf, md_generator := mdgen,
          runConfig := runCfg, dispatcher := buildDispatcher args }

/-! ## The breadth-first crawl (modelled from the spec) -/

/-- Modelled from the spec (§3 Lifecycle, §4.4) — the breadth-first
frontier lives in crawl4ai's `BFSDeepCrawlStrategy`, not in this
repository: each level's pages become outcomes at depth `d`, and their
discovered links, deduplicated against the visited set, re-enter the
frontier at depth `d + 1` until the depth budget is exhausted. -/
def bfsAux (fetch : String → List String) :
    Nat → List String → List String → Nat → List (String × Nat)
  | 0, _, frontier, d => frontier.map (fun u => (u, d))
  | budget + 1, visited, frontier, d =>
    let links := (frontier.map fetch).flatten
    let next := links.foldl
      (fun acc u => if visited.contains u || acc.contains u then acc else acc ++ [u]) []
    frontier.map (fun u => (u, d)) ++ bfsAux fetch budget (visited ++ next) next (d + 1)

/-- The breadth-first crawl from the start URL with `max_depth` levels of
expansion. -/
def bfsCrawl (fetch : String → List String) (maxDepth : Nat) (start : String) :
    List (String × Nat) :=
  bfsAux fetch maxDepth [start] [start] 0

/-- The crawl's outcomes as the `CrawlResult`s `main` consumes. -/
def crawlResultsOf (fetch : String → List String) (maxDepth : Nat) (start : String) :
    List CrawlResult :=
  (bfsCrawl fetch maxDepth start).map
    (fun p => { url := p.1, depthMeta := some p.2, success := true, markdown := none })

/-- What a whole program run produces. -/
structure ProgramRun where
  fatal : Option ConfigError
  outcomes : List CrawlResult
  fetchCount : Nat
deriving DecidableEq, Repr

/-- Modelled from the spec (§7): the configuration phase runs first; a
configuration error is fatal and no fetch happens; otherwise the crawl
runs and per-page failures stay local to their outcomes. -/
def runProgram (env : List (String × String)) (args : Args)
    (fetch : String → List String) : ProgramRun :=
  match configPhase env args with
  | .error e => { fatal := some e, outcomes := [], fetchCount := 0 }
  | .ok setup =>
    let rs := crawlResultsOf fetch setup.strategy.max_depth args.url
    { fatal := none, outcomes := rs, fetchCount := rs.length }

/-! ## Rate-limiter dynamics (modelled from the spec) -/

/-- Per-domain rate-limiter state (spec §3, `RateLimiterState`). -/
structure DomainState where
  current_delay : ℚ
  retry_count : Nat
deriving DecidableEq, Repr

/-- Modelled from the spec (§4.2) — the backoff lives in crawl4ai's
`RateLimiter`, not in this repository: on a throttle signal the delay
doubles, bounded by the configured ceiling. -/
def throttleDelay (rl : RateLimiter) (d : ℚ) : ℚ :=
  min (d * 2) rl.max_delay

/-- Modelled from the spec (§4.2): a throttle beyond the retry budget
terminates the task with `ThrottleExhausted` (`none`); otherwise the
delay doubles (bounded) and the retry count increments. -/
def onThrottle (rl : RateLimiter) (s : DomainState) : Option DomainState :=
  if s.retry_count ≥ rl.max_retries then none
  else some { current_delay := throttleDelay rl s.current_delay,
              retry_count := s.retry_count + 1 }

/-- Modelled from the spec (§4.2): a successful fetch resets the domain to
a fresh base delay. -/
def onSuccess (base : ℚ) (_s : DomainState) : DomainState :=
  { current_delay := base, retry_count := 0 }

/-- The delay reached after `k` consecutive throttles starting from a
drawn base delay. -/
def delayAfter (rl : RateLimiter) (base : ℚ) : Nat → ℚ
  | 0 => base
  | k + 1 => throttleDelay rl (delayAfter rl base k)

/-- Fresh state for a domain whose base delay was drawn as `base`. -/
def initialDomainState (base : ℚ) : DomainState :=
  { current_delay := base, retry_count := 0 }

/-- The states a task's domain passes through on a list of signals
(`true` = throttled); the trace stops when the budget is exhausted. -/
def rlStates (rl : RateLimiter) (base : ℚ) :
    List Bool → DomainState → List DomainState
  | [], s => [s]
  | sig :: rest, s =>
    if sig then
      match onThrottle rl s with
      | none => [s]
      | some s2 => s :: rlStates rl base rest s2
    else s :: rlStates rl base rest (onSuccess base s)

/-- C2: the deep-crawl strategy is always constructed with a present
(never absent) filter chain; with no URL-pattern, domain or content-type
options that chain is empty-but-present; and a filter chain with zero
predicates admits every discovered link. -/
theorem filter_chain_present (args : Args) (gm : String → String → Bool) (link : Link) :
    (buildStrategy args).filter_chain.isSome = true
    ∧ (args.url_patterns = [] → args.allowed_domains = [] → args.blocked_domains = [] →
        args.allowed_content_types = [] →
        (buildStrategy args).filter_chain = some { filters := [] })
    ∧ FilterChain.applyAll gm { filters := [] } link = true := by
  refine ⟨rfl, ?_, rfl⟩
  intro h1 h2 h3 h4
  simp [buildStrategy, buildFilterChain, buildFilters, h1, h2, h3, h4]

/-- Arguments as argparse produces them when only the start URL is given. -/
def defaultArgs : Args := { url := "https://example.com" }

/-- Closed instance of C2 at the default configuration. -/
theorem filter_chain_present_witness :
    (buildStrategy defaultArgs).filter_chain = some { filters := [] } :=
  (filter_chain_present defaultArgs (fun _ _ => true)
    { url := "u", domain := "d", contentType := "t" }).2.1 rfl rfl rfl rfl

/-- C4: selecting the LLM content filter with no `--llm-api-token` and no
matching environment variable is a fatal configuration error surfaced
before any fetch (the fetch count of the run is zero), and
configuration-phase errors are the only fatal errors. -/
theorem llm_credential_fatal (env : List (String × String)) (args : Args)
    (fetch : String → List String) :
    (args.content_filter = some ContentFilterKind.llm → args.llm_api_token = none →
      lookupAssoc env (envVarFor args.llm_provider) = none →
      (runProgram env args fetch).fatal = some ConfigError.configurationError
      ∧ (runProgram env args fetch).fetchCount = 0)
    ∧ ((runProgram env args fetch).fatal.isSome = true →
        ∃ e, configPhase env args = .error e) := by
  constructor
  · intro h1 h2 h3
    have hcf : buildContentFilter env args = .error ConfigError.configurationError := by
      simp [buildContentFilter, h1, h2, h3]
    constructor
    · simp [runProgram, configPhase, hcf]
    · simp [runProgram, configPhase, hcf]
  · intro hf
    cases hc : configPhase env args with
    | error e => exact ⟨e, rfl⟩
    | ok setup =>
      rw [runProgram, hc] at hf
      simp at hf

/-- The arguments of a run that selects the LLM filter with no token. -/
def llmArgs : Args := { url := "https://example.com",
                        content_filter := some ContentFilterKind.llm }

/-- Closed instance of C4: with an empty environment the run is fatal
before any fetch. -/
theorem llm_credential_fatal_witness :
    (runProgram [] llmArgs (fun _ => [])).fatal = some ConfigError.configurationError
    ∧ (runProgram [] llmArgs (fun _ => [])).fetchCount = 0 :=
  (llm_credential_fatal [] llmArgs (fun _ => [])).1 rfl rfl rfl

theorem buildContentFilter_isSome (env : List (String × String)) (args : Args)
    (cf : Option ContentFilter) (hsel : args.content_filter.isSome = true)
    (h : buildContentFilter env args = .ok cf) : cf.isSome = true := by
  cases hk : args.content_filter with
  | none => rw [hk] at hsel; simp at hsel
  | some k =>
    cases k with
    | pruning =>
      simp [buildContentFilter, hk] at h
      simp [← h]
    | bm25 =>
      simp [buildContentFilter, hk] at h
      simp [← h]
    | llm =>
      cases ht : args.llm_api_token with
      | some tok =>
        simp [buildContentFilter, hk, ht] at h
        simp [← h]
      | none =>
        cases he : lookupAssoc env (envVarFor args.llm_provider) with
        | some tok =>
          simp [buildContentFilter, hk, ht, he] at h
          simp [← h]
        | none =>
          simp [buildContentFilter, hk, ht, he] at h

theorem savedFileFor_off (cf : Bool) (r : CrawlResult) :
    savedFileFor false cf r = none := by
  simp [savedFileFor]

/-- C8: with a content filter selected but `--save-markdown` unset, the
filter object is constructed, yet the run config's markdown generator is
`None` and nothing is ever saved in either mode, so the filter affects no
outcome. -/
theorem filter_unused_without_save (env : List (String × String)) (args : Args)
    (setup : ProgramSetup) (hcf : args.content_filter.isSome = true)
    (hsm : args.save_markdown = false) (hok : configPhase env args = .ok setup) :
    setup.content_filter.isSome = true
    ∧ setup.runConfig.markdown_generator = none
    ∧ (∀ rs : List CrawlResult,
        batchSaved args.save_markdown args.content_filter.isSome rs = [])
    ∧ (∀ rs : List CrawlResult,
        (streamingRun args.save_markdown args.content_filter.isSome rs).saved = []) := by
  cases hbcf : buildContentFilter env args with
  | error e =>
    rw [configPhase, hbcf] at hok
    simp at hok
  | ok cf =>
    rw [configPhase, hbcf] at hok
    simp only [Except.ok.injEq] at hok
    have hcf' : cf.isSome = true := buildContentFilter_isSome env args cf hcf hbcf
    refine ⟨?_, ?_, ?_, ?_⟩
    · rw [← hok]
      exact hcf'
    · rw [← hok]
      simp [hsm]
    · intro rs
      rw [hsm, batchSaved]
      simp [savedFileFor_off]
    · intro rs
      rw [hsm, streamingRun, streamingRun_saved]
      simp [savedFileFor_off]

/-- Arguments selecting the pruning filter without `--save-markdown`. -/
def pruningArgs : Args := { url := "https://example.com",
                            content_filter := some ContentFilterKind.pruning }

/-- The setup `configPhase` computes for `pruningArgs`. -/
def pruningSetup : ProgramSetup :=
  { strategy := buildStrategy pruningArgs,
    content_filter := some (ContentFilter.pruningFilter pruningArgs.pruning_threshold
      pruningArgs.threshold_type pruningArgs.min_word_threshold),
    md_generator :=
      { content_filter := some (ContentFilter.pruningFilter pruningArgs.pruning_threshold
          pruningArgs.threshold_type pruningArgs.min_word_threshold),
        options := buildMarkdownOptions pruningArgs },
    runConfig :=
      { deep_crawl_strategy := buildStrategy pruningArgs, verbose := false,
        markdown_generator := none, stream := false, cache_mode := CacheMode.bypass },
    dispatcher := buildDispatcher pruningArgs }

/-- Closed instance of C8 at `pruningArgs`. -/
theorem filter_unused_without_save_witness :
    pruningSetup.content_filter.isSome = true
    ∧ pruningSetup.runConfig.markdown_generator = none
    ∧ batchSaved pruningArgs.save_markdown pruningArgs.content_filter.isSome
        [summaryResOk] = [] := by
  obtain ⟨h1, h2, h3, _⟩ :=
    filter_unused_without_save [] pruningArgs pruningSetup rfl rfl (by rfl)
  exact ⟨h1, h2, h3 [summaryResOk]⟩

theorem bfsAux_depth_le (fetch : String → List String) :
    ∀ (budget : Nat) (visited frontier : List String) (d : Nat),
      ∀ p ∈ bfsAux fetch budget visited frontier d, p.2 ≤ d + budget := by
  intro budget
  induction budget with
  | zero =>
    intro visited frontier d p hp
    simp only [bfsAux, List.mem_map] at hp
    obtain ⟨u, _, hpu⟩ := hp
    rw [← hpu]
    omega
  | succ b ih =>
    intro visited frontier d p hp
    simp only [bfsAux, List.mem_append, List.mem_map] at hp
    rcases hp with ⟨u, _, hpu⟩ | hp
    · rw [← hpu]
      show d ≤ d + (b + 1)
      omega
    · have := ih _ _ (d + 1) p hp
      omega

theorem entries_ne_nil_add (t : List (Nat × List String)) (d : Nat) (u : String)
    (h : ∀ q ∈ t, q.2 ≠ []) : ∀ q ∈ addToDepthTable t d u, q.2 ≠ [] := by
  induction t with
  | nil =>
    intro q hq
    simp only [addToDepthTable, List.mem_singleton] at hq
    rw [hq]
    simp
  | cons p rest ih =>
    obtain ⟨k, us⟩ := p
    intro q hq
    by_cases hk : k = d
    · subst hk
      simp only [addToDepthTable, if_pos rfl] at hq
      rcases List.mem_cons.mp hq with rfl | hq'
      · simp
      · exact h q (List.mem_cons_of_mem _ hq')
    · simp only [addToDepthTable, if_neg hk] at hq
      rcases List.mem_cons.mp hq with rfl | hq'
      · exact h (k, us) (List.mem_cons_self _ _)
      · exact ih (fun q' hq'' => h q' (List.mem_cons_of_mem _ hq'')) q hq'

theorem entries_ne_nil_fold (rs : List CrawlResult) (t : List (Nat × List String))
    (h : ∀ q ∈ t, q.2 ≠ []) :
    ∀ q ∈ rs.foldl (fun t r => addToDepthTable t (resultDepth r) r.url) t, q.2 ≠ [] := by
  induction rs generalizing t with
  | nil => simpa using h
  | cons r rest ih =>
    simp only [List.foldl_cons]
    exact ih _ (entries_ne_nil_add _ _ _ h)

/-- C5: no outcome of a crawl with `max_depth = dmax` has depth greater
than `dmax`, and every depth key of the per-depth grouping `main` builds
from the crawl results is at most `dmax`. -/
theorem max_depth_bound (fetch : String → List String) (dmax : Nat) (start : String) :
    (∀ p ∈ bfsCrawl fetch dmax start, p.2 ≤ dmax)
    ∧ (∀ e ∈ batchPagesByDepth (crawlResultsOf fetch dmax start), e.1 ≤ dmax) := by
  constructor
  · intro p hp
    have := bfsAux_depth_le fetch dmax [start] [start] 0 p hp
    omega
  · intro e he
    have hmem := mem_batchPagesByDepth _ e.1 e.2 he
    have hne : e.2 ≠ [] := entries_ne_nil_fold _ [] (by simp) (e.1, e.2) he
    rw [hmem] at hne
    have hex : ∃ r ∈ crawlResultsOf fetch dmax start, resultDepth r = e.1 := by
      by_contra hno
      push_neg at hno
      apply hne
      rw [urlsAtDepth, List.map_eq_nil_iff, List.filter_eq_nil_iff]
      intro r hr
      simp only [decide_eq_true_eq]
      exact hno r hr
    obtain ⟨r, hr, hd⟩ := hex
    rw [crawlResultsOf, List.mem_map] at hr
    obtain ⟨p, hp, hpr⟩ := hr
    have hple := bfsAux_depth_le fetch dmax [start] [start] 0 p hp
    rw [← hpr] at hd
    simp [resultDepth] at hd
    omega

/-- A two-page fixture graph: the root links to one child. -/
def demoFetch : String → List String :=
  fun u => if u = "https://r.com/" then ["https://r.com/a"] else []

/-- Closed instances of C5 on the fixture crawl at `max_depth = 1`. -/
theorem max_depth_bound_witness :
    (("https://r.com/", 0) : String × Nat).2 ≤ 1
    ∧ (((0 : Nat), ["https://r.com/"]) : Nat × List String).1 ≤ 1 :=
  ⟨(max_depth_bound demoFetch 1 "https://r.com/").1 ("https://r.com/", 0) (by decide),
   (max_depth_bound demoFetch 1 "https://r.com/").2 ((0 : Nat), ["https://r.com/"]) (by decide)⟩

theorem rlStates_retry_le (rl : RateLimiter) (base : ℚ) :
    ∀ (signals : List Bool) (s0 : DomainState),
      s0.retry_count ≤ rl.max_retries →
      ∀ s ∈ rlStates rl base signals s0, s.retry_count ≤ rl.max_retries := by
  intro signals
  induction signals with
  | nil =>
    intro s0 h0 s hs
    simp only [rlStates, List.mem_singleton] at hs
    rw [hs]
    exact h0
  | cons sig rest ih =>
    intro s0 h0 s hs
    simp only [rlStates] at hs
    by_cases hsig : sig = true
    · rw [if_pos hsig] at hs
      cases ht : onThrottle rl s0 with
      | none =>
        rw [ht] at hs
        simp only [List.mem_singleton] at hs
        rw [hs]
        exact h0
      | some s2 =>
        rw [ht] at hs
        rcases List.mem_cons.mp hs with rfl | hs'
        · exact h0
        · refine ih s2 ?_ s hs'
          rw [onThrottle] at ht
          by_cases hge : s0.retry_count ≥ rl.max_retries
          · rw [if_pos hge] at ht
            cases ht
          · rw [if_neg hge] at ht
            simp only [Option.some.injEq] at ht
            rw [← ht]
            show s0.retry_count + 1 ≤ rl.max_retries
            omega
    · rw [if_neg hsig] at hs
      rcases List.mem_cons.mp hs with rfl | hs'
      · exact h0
      · exact ih _ (by simp [onSuccess]) s hs'

/-- C7: after `k` consecutive throttles the delay equals
`min(base * 2^k, maxDelay)`; the retry count in every state a task's
domain reaches is at most `max_retries`; and a throttle signal arriving
with the budget used up terminates the task as `ThrottleExhausted`
(`none`) instead of retrying. -/
theorem rate_limiter_backoff (rl : RateLimiter) (base : ℚ)
    (h0 : 0 ≤ base) (hb : base ≤ rl.max_delay) :
    (∀ k : Nat, delayAfter rl base k = min (base * 2 ^ k) rl.max_delay)
    ∧ (∀ (signals : List Bool) (s : DomainState),
        s ∈ rlStates rl base signals (initialDomainState base) →
        s.retry_count ≤ rl.max_retries)
    ∧ (∀ s : DomainState, s.retry_count = rl.max_retries → onThrottle rl s = none) := by
  refine ⟨?_, ?_, ?_⟩
  · intro k
    induction k with
    | zero =>
      simp only [delayAfter, pow_zero, mul_one]
      exact (min_eq_left hb).symm
    | succ n ih =>
      rw [delayAfter, ih, throttleDelay]
      have hM : (0 : ℚ) ≤ rl.max_delay := le_trans h0 hb
      rw [min_mul_of_nonneg _ _ (by norm_num : (0 : ℚ) ≤ 2)]
      rw [min_assoc]
      have h2M : min (rl.max_delay * 2) rl.max_delay = rl.max_delay := by
        rw [min_eq_right]
        linarith
      rw [h2M, pow_succ, mul_assoc]
  · intro signals s hs
    exact rlStates_retry_le rl base signals (initialDomainState base) (by simp [initialDomainState]) s hs
  · intro s hsr
    rw [onThrottle, if_pos (le_of_eq hsr.symm)]

/-- The rate limiter built from the script's defaults
(`base_delay=(1.0, 3.0)`, `max_delay=60.0`, `max_retries=3`). -/
def demoRateLimiter : RateLimiter :=
  { base_delay_min := 1, base_delay_max := 3, max_delay := 60, max_retries := 3 }

/-- Closed instances of C7: two throttles from base 1 give delay
`min(1 * 2^2, 60) = 4`; any reachable state of a throttle-throttle run
respects the budget; and a state at the budget is exhausted. -/
theorem rate_limiter_backoff_witness :
    delayAfter demoRateLimiter 1 2 = min ((1 : ℚ) * 2 ^ 2) 60
    ∧ (initialDomainState 1).retry_count ≤ demoRateLimiter.max_retries
    ∧ onThrottle demoRateLimiter { current_delay := 8, retry_count := 3 } = none :=
  ⟨(rate_limiter_backoff demoRateLimiter 1 (by norm_num) (by norm_num [demoRateLimiter])).1 2,
   (rate_limiter_backoff demoRateLimiter 1 (by norm_num) (by norm_num [demoRateLimiter])).2.1
     [true, true] (initialDomainState 1) (by simp [rlStates, onThrottle, demoRateLimiter, initialDomainState]),
   (rate_limiter_backoff demoRateLimiter 1 (by norm_num) (by norm_num [demoRateLimiter])).2.2
     { current_delay := 8, retry_count := 3 } rfl⟩

end WebScraper
